import Mathlib

/-!
Shallow embedding of the job orchestration and caching pipeline of the
abr1 repository (src/app.py, src/motion_pipeline.py, src/transcribe.py,
src/beat_analysis.py, src/models.py, src/motion.py).

External effects are made explicit parameters:
  * the filesystem is a map from paths to optional byte contents
    (none models an unreadable file, as in the open call of hash_file);
  * the external engines (hashlib.md5, whisper via transcribe_audio,
    librosa via analyze_beats, manim via run_manim, ffmpeg via
    overlay_video) are fields of an Engines record, each returning
    Except to model a raised exception of the wrapped tool;
  * datetime.now plus random.choices inside unique_id is an oracle
    string supplied per job.

The pipeline state PipeState carries the two cache namespaces
(cache/segments_<hash>.json and cache/beats_<hash>.json as association
lists keyed by fingerprint), the fixed shared workspace files
segments.json and beats.json read by the manim scene, and the list of
files written into the output directory.  Every engine invocation is
logged into a call list and every progress_callback invocation into an
update list, so that the theorems can speak about invocation counts and
about the persisted progress sequence.
-/

abbrev Bytes := List Nat

abbrev Artifact := String

/-- One invocation of an external engine, with the arguments the source
passes to it. -/
inductive EngineCall where
  | transcribe (audio : Bytes)
  | beats (audio : Bytes)
  | manim (quality : String) (wsSeg wsBeats : Option Artifact)
  | ffmpeg (base overlay audio out : String)
deriving DecidableEq, Repr

/-- The external tools invoked by motion_pipeline.py, as oracles.  Each
Except models the wrapped tool raising an exception with a message. -/
structure Engines where
  md5 : Bytes → String
  transcribe_audio : Bytes → Except String Artifact
  analyze_beats : Bytes → Except String Artifact
  run_manim : String → Option Artifact → Option Artifact → Except String (Artifact × String)
  overlay_video : String → String → String → Except String Unit

/-- On-disk state touched by motion_pipeline.py: the two cache
namespaces, the shared workspace files segments.json and beats.json,
and the files written under the output directory. -/
structure PipeState where
  segCache : List (String × Artifact)
  beatsCache : List (String × Artifact)
  wsSegments : Option Artifact
  wsBeats : Option Artifact
  outFiles : List String
deriving DecidableEq, Repr

/-- Result of one process_job run: final disk state, the engine calls
made, the progress_callback invocations made, and either the final
output path or the raised error message. -/
structure JobResult where
  state : PipeState
  calls : List EngineCall
  updates : List (Int × String)
  outcome : Except String String
deriving Repr

/-- Cache lookup: os.path.exists plus read of the cache file for a
fingerprint. -/
def cacheLookup (c : List (String × Artifact)) (k : String) : Option Artifact :=
  (c.find? (fun e => e.1 == k)).map (fun e => e.2)

/-- Cache write: creating cache/<class>_<fingerprint>.json. -/
def cacheInsert (c : List (String × Artifact)) (k : String) (v : Artifact) :
    List (String × Artifact) :=
  (k, v) :: c

/-- os.path.join for the simple dir/name case used by the source. -/
def pathJoin (d f : String) : String := d ++ "/" ++ f

/-- The quality normalisation at the top of run_manim: any flag outside
the set is replaced by h. -/
def normalizeQuality (q : String) : String :=
  if q = "l" ∨ q = "m" ∨ q = "h" ∨ q = "p" ∨ q = "k" then q else "h"

/-- Running accumulator inside process_job: disk state, engine calls so
far, progress updates so far. -/
structure PAcc where
  state : PipeState
  calls : List EngineCall
  updates : List (Int × String)
deriving DecidableEq, Repr

/-- One call of the local update helper inside process_job. -/
def pushUpdate (acc : PAcc) (p : Int) (m : String) : PAcc :=
  { acc with updates := acc.updates ++ [(p, m)] }

/-- Transcript stage of process_job: on a cache hit copy the cached
artifact over segments.json; on a miss invoke whisper via
transcribe_audio, which writes the cache file only after the model has
produced the segments, then copy it over segments.json.  Returns some
error message when the engine raised. -/
def transcriptStage (eng : Engines) (audio : Bytes) (h : String) (acc : PAcc) :
    PAcc × Option String :=
  match cacheLookup acc.state.segCache h with
  | some t =>
    let acc := pushUpdate acc 15 "استفاده از کش متن..."
    ({ acc with state := { acc.state with wsSegments := some t } }, none)
  | none =>
    let acc := pushUpdate acc 15 "تبدیل صوت به متن (Whisper)..."
    let acc := { acc with calls := acc.calls ++ [.transcribe audio] }
    match eng.transcribe_audio audio with
    | .error e => (acc, some e)
    | .ok t =>
      ({ acc with
          state := { acc.state with
            segCache := cacheInsert acc.state.segCache h t,
            wsSegments := some t } }, none)

/-- Beat stage of process_job: same cache-or-compute pattern against
analyze_beats, keyed by the same fingerprint, copying over beats.json. -/
def beatStage (eng : Engines) (audio : Bytes) (h : String) (acc : PAcc) :
    PAcc × Option String :=
  match cacheLookup acc.state.beatsCache h with
  | some b =>
    let acc := pushUpdate acc 35 "استفاده از کش ضرب‌ها..."
    ({ acc with state := { acc.state with wsBeats := some b } }, none)
  | none =>
    let acc := pushUpdate acc 35 "تحلیل ضرب آهنگ (Librosa)..."
    let acc := { acc with calls := acc.calls ++ [.beats audio] }
    match eng.analyze_beats audio with
    | .error e => (acc, some e)
    | .ok b =>
      ({ acc with
          state := { acc.state with
            beatsCache := cacheInsert acc.state.beatsCache h b,
            wsBeats := some b } }, none)

/-- Render stage: run_manim with the normalised quality flag; the scene
reads the current workspace files segments.json and beats.json.  On
success the oracle yields the newest output artifact and its suffix. -/
def renderStage (eng : Engines) (quality : String) (acc : PAcc) :
    PAcc × Except String (Artifact × String) :=
  let acc := pushUpdate acc 55 "رندر موشن با Manim..."
  let q := normalizeQuality quality
  let acc := { acc with
    calls := acc.calls ++ [.manim q acc.state.wsSegments acc.state.wsBeats] }
  (acc, eng.run_manim q acc.state.wsSegments acc.state.wsBeats)

/-- Composite stage: copy the manim output next to the final location
under a per-job token, then invoke ffmpeg via overlay_video writing
final_<uid>.mp4. -/
def compositeStage (eng : Engines) (uid : String)
    (audio_path video_path output_dir : String)
    (manimOut : Artifact × String) (acc : PAcc) : PAcc × Except String String :=
  let overlay := pathJoin output_dir ("manim_" ++ uid ++ manimOut.2)
  let acc := { acc with
    state := { acc.state with outFiles := acc.state.outFiles ++ [overlay] } }
  let final := pathJoin output_dir ("final_" ++ uid ++ ".mp4")
  let acc := pushUpdate acc 80 "ترکیب موشن با ویدیو اصلی (ffmpeg)..."
  let acc := { acc with
    calls := acc.calls ++ [.ffmpeg video_path overlay audio_path final] }
  match eng.overlay_video video_path overlay audio_path with
  | .error e => (acc, .error e)
  | .ok _ =>
    let acc := { acc with
      state := { acc.state with outFiles := acc.state.outFiles ++ [final] } }
    let acc := pushUpdate acc 100 "تمام شد ✅"
    (acc, .ok final)

/-- process_job of motion_pipeline.py: hash the audio, then transcript,
beat, render and composite stages in order, logging every engine call
and every progress update.  A none filesystem entry models the open
call inside hash_file raising. -/
def process_job (eng : Engines) (fs : String → Option Bytes) (uid : String)
    (st : PipeState) (audio_path video_path output_dir quality : String) :
    JobResult :=
  let acc0 : PAcc := { state := st, calls := [], updates := [] }
  let acc0 := pushUpdate acc0 5 "محاسبه‌ی هش فایل صوتی..."
  match fs audio_path with
  | none =>
    { state := acc0.state, calls := acc0.calls, updates := acc0.updates,
      outcome := .error ("cannot read audio: " ++ audio_path) }
  | some audio =>
    let h := eng.md5 audio
    match transcriptStage eng audio h acc0 with
    | (acc, some e) =>
      { state := acc.state, calls := acc.calls, updates := acc.updates,
        outcome := .error e }
    | (acc, none) =>
      match beatStage eng audio h acc with
      | (acc, some e) =>
        { state := acc.state, calls := acc.calls, updates := acc.updates,
          outcome := .error e }
      | (acc, none) =>
        match renderStage eng quality acc with
        | (acc, .error e) =>
          { state := acc.state, calls := acc.calls, updates := acc.updates,
            outcome := .error e }
        | (acc, .ok m) =>
          match compositeStage eng uid audio_path video_path output_dir m acc with
          | (acc, .error e) =>
            { state := acc.state, calls := acc.calls, updates := acc.updates,
              outcome := .error e }
          | (acc, .ok out) =>
            { state := acc.state, calls := acc.calls, updates := acc.updates,
              outcome := .ok out }

/-- Number of transcription-engine invocations in a call log. -/
def countTranscribe (cs : List EngineCall) : Nat :=
  (cs.filter (fun c => match c with | .transcribe _ => true | _ => false)).length

/-- Number of beat-detection-engine invocations in a call log. -/
def countBeats (cs : List EngineCall) : Nat :=
  (cs.filter (fun c => match c with | .beats _ => true | _ => false)).length

/-- A row of the jobs table of models.py, with the fields the worker
touches.  Timestamps are abstract Nat instants. -/
structure JobRecord where
  id : Nat
  uuid : String
  project_id : Nat
  audio_path : String
  video_path : String
  output_path : Option String
  status : String
  progress : Int
  message : String
  error : Option String
  created_at : Nat
deriving DecidableEq, Repr

/-- The Job row created by enqueue_job: status queued, progress 0,
output path and error detail unset. -/
def mkJob (id : Nat) (uuid : String) (pid : Nat) (a v : String) (t : Nat) :
    JobRecord :=
  { id := id, uuid := uuid, project_id := pid, audio_path := a, video_path := v,
    output_path := none, status := "queued", progress := 0,
    message := "در صف انتظار...", error := none, created_at := t }

/-- The clamp inside progress_callback of app.py:
max(0, min(100, int(percent))). -/
def clampProgress (p : Int) : Int := max 0 (min 100 p)

/-- One progress_callback invocation: clamp the percentage, overwrite
progress and message, persist. -/
def applyUpdate (j : JobRecord) (u : Int × String) : JobRecord :=
  { j with progress := clampProgress u.1, message := u.2 }

/-- The successive persisted rows produced by the callback over a list
of reported updates. -/
def progressSnaps (j : JobRecord) : List (Int × String) → List JobRecord
  | [] => []
  | u :: rest =>
    let j2 := applyUpdate j u
    j2 :: progressSnaps j2 rest

/-- The terminal commit of worker_loop: on pipeline success status done,
progress 100, output path set; on a caught exception status error,
progress 0, error detail set to str(e). -/
def finishJob (j : JobRecord) (outcome : Except String String) : JobRecord :=
  match outcome with
  | .ok out =>
    { j with
      status := "done"
      progress := 100
      message := "تمام شد ✅"
      output_path := some out }
  | .error e =>
    { j with
      status := "error"
      progress := 0
      message := "خطا در اجرای جاب"
      error := some e }

/-- The in-session ORM row after the callback has been applied to a
whole list of reported updates. -/
def lastState (j : JobRecord) : List (Int × String) → JobRecord
  | [] => j
  | u :: rest => lastState (applyUpdate j u) rest

/-- One worker_loop iteration body on a loaded Job row: mark it running
at progress 5, run process_job with the progress callback, then commit
the terminal row.  Returns the new pipeline disk state, the final row,
and the full sequence of persisted rows of this iteration. -/
def runJob (eng : Engines) (fs : String → Option Bytes) (uid : String)
    (output_dir : String) (ps : PipeState) (job : JobRecord) :
    PipeState × JobRecord × List JobRecord :=
  let j1 := { job with
              status := "running"
              progress := 5
              message := "شروع پردازش..." }
  let res := process_job eng fs uid ps job.audio_path job.video_path output_dir "h"
  let snaps := progressSnaps j1 res.updates
  let jFin := finishJob (lastState j1 res.updates) res.outcome
  (res.state, jFin, (j1 :: snaps) ++ [jFin])

/-- State threaded through worker_loop: the jobs table, the pipeline
disk state, the media table rows created on success, and the global
trace of persisted job rows tagged with their job id. -/
structure WorkerState where
  store : List JobRecord
  pipe : PipeState
  medias : List (Nat × String)
  trace : List (Nat × JobRecord)
deriving Repr

/-- db.get(Job, job_id). -/
def findJob (store : List JobRecord) (id : Nat) : Option JobRecord :=
  store.find? (fun j => j.id == id)

/-- Persisting a row: replace the row with this id, keep every other
row unchanged. -/
def updateJob (store : List JobRecord) (id : Nat) (new : JobRecord) :
    List JobRecord :=
  store.map (fun j => if j.id == id then new else j)

/-- One iteration of worker_loop for a dequeued id: a missing row is
discarded silently; otherwise the job is run, its final row persisted,
a Media row added when the pipeline succeeded, and the persisted rows
appended to the global trace. -/
def workerStep (eng : Engines) (fs : String → Option Bytes)
    (uidOf : Nat → String) (output_dir : String)
    (ws : WorkerState) (job_id : Nat) : WorkerState :=
  match findJob ws.store job_id with
  | none => ws
  | some job =>
    let r := runJob eng fs (uidOf job_id) output_dir ws.pipe job
    { store := updateJob ws.store job_id r.2.1,
      pipe := r.1,
      medias := ws.medias ++
        (match r.2.1.output_path with
         | some out => [(job_id, out)]
         | none => []),
      trace := ws.trace ++ r.2.2.map (fun s => (job_id, s)) }

/-- worker_loop of app.py over a finite prefix of the queue: the single
consumer processes the dequeued ids strictly in FIFO order. -/
def worker_loop (eng : Engines) (fs : String → Option Bytes)
    (uidOf : Nat → String) (output_dir : String)
    (ws : WorkerState) (queue : List Nat) : WorkerState :=
  queue.foldl (workerStep eng fs uidOf output_dir) ws

/-- The block of trace events one dequeued id contributes. -/
def jobBlock (eng : Engines) (fs : String → Option Bytes)
    (uidOf : Nat → String) (output_dir : String)
    (ws : WorkerState) (job_id : Nat) : List (Nat × JobRecord) :=
  match findJob ws.store job_id with
  | none => []
  | some job =>
    (runJob eng fs (uidOf job_id) output_dir ws.pipe job).2.2.map
      (fun s => (job_id, s))

/-- The per-job trace blocks of a worker run, in dequeue order. -/
def traceBlocks (eng : Engines) (fs : String → Option Bytes)
    (uidOf : Nat → String) (output_dir : String)
    (ws : WorkerState) : List Nat → List (List (Nat × JobRecord))
  | [] => []
  | q :: rest =>
    jobBlock eng fs uidOf output_dir ws q ::
      traceBlocks eng fs uidOf output_dir (workerStep eng fs uidOf output_dir ws q) rest

/-- unique_id of motion_pipeline.py, with the strftime result and the
four random characters as oracle inputs. -/
def unique_id (ts rnd : String) : String := ts ++ "_" ++ rnd

/-- The final output path process_job writes for a job token. -/
def finalOutputPath (output_dir uid : String) : String :=
  pathJoin output_dir ("final_" ++ uid ++ ".mp4")

/-- Empty initial disk state: both cache directories empty, no
workspace files, nothing in the output directory. -/
def emptyPipe : PipeState :=
  { segCache := [], beatsCache := [], wsSegments := none, wsBeats := none,
    outFiles := [] }

/-- Concrete engines for evaluating the model on closed inputs: every
tool succeeds. -/
def demoEngines : Engines :=
  { md5 := fun a => "fp" ++ toString a.length
    transcribe_audio := fun _ => .ok "segments-artifact"
    analyze_beats := fun _ => .ok "beats-artifact"
    run_manim := fun _ _ _ => .ok ("overlay-video", ".mp4")
    overlay_video := fun _ _ _ => .ok () }

/-- Concrete engines whose transcription tool raises. -/
def whisperFailEngines : Engines :=
  { demoEngines with transcribe_audio := fun _ => .error "whisper raised" }

/-- Concrete engines whose beat-detection tool raises. -/
def librosaFailEngines : Engines :=
  { demoEngines with analyze_beats := fun _ => .error "librosa raised" }

/-- Concrete engines whose rendering tool terminates nonzero. -/
def manimFailEngines : Engines :=
  { demoEngines with run_manim := fun _ _ _ => .error "manim raised" }

/-- Concrete filesystem with one readable audio file. -/
def demoFs : String → Option Bytes :=
  fun p => if p = "song.mp3" then some [1, 2, 3] else none

/-- Concrete filesystem on which every open raises. -/
def downFs : String → Option Bytes := fun _ => none
/-- C7: a job whose audio file cannot be read fails during
fingerprinting with a stage failure, before any engine is invoked, and
leaves the whole pipeline disk state, in particular both cache
namespaces, unchanged. -/
theorem unreadable_audio_fails_before_any_engine
    (eng : Engines) (fs : String → Option Bytes) (uid : String) (st : PipeState)
    (ap vp od q : String) (hfs : fs ap = none) :
    (process_job eng fs uid st ap vp od q).outcome =
        .error ("cannot read audio: " ++ ap) ∧
    (process_job eng fs uid st ap vp od q).state = st ∧
    (process_job eng fs uid st ap vp od q).calls = [] := by
  simp [process_job, hfs, pushUpdate]

/-- Witness for C7 at a concrete filesystem on which every open
raises. -/
theorem unreadable_audio_fails_before_any_engine_witness :
    downFs "song.mp3" = none ∧
    ((process_job demoEngines downFs "U1" emptyPipe "song.mp3" "b.mp4" "out" "h").outcome =
        .error ("cannot read audio: " ++ "song.mp3") ∧
     (process_job demoEngines downFs "U1" emptyPipe "song.mp3" "b.mp4" "out" "h").state = emptyPipe ∧
     (process_job demoEngines downFs "U1" emptyPipe "song.mp3" "b.mp4" "out" "h").calls = []) :=
  ⟨rfl, unreadable_audio_fails_before_any_engine demoEngines downFs "U1" emptyPipe
    "song.mp3" "b.mp4" "out" "h" rfl⟩

/-- C10: a quality flag outside the set of the five manim letters is
silently replaced by h inside run_manim, so process_job behaves exactly
as with quality h and never fails because of the quality string. -/
theorem invalid_quality_silently_replaced_by_h
    (eng : Engines) (fs : String → Option Bytes) (uid : String) (st : PipeState)
    (ap vp od : String) (q : String)
    (hq : ¬(q = "l" ∨ q = "m" ∨ q = "h" ∨ q = "p" ∨ q = "k")) :
    normalizeQuality q = "h" ∧
    process_job eng fs uid st ap vp od q = process_job eng fs uid st ap vp od "h" := by
  have hn : normalizeQuality q = "h" := by simp [normalizeQuality, hq]
  have hr : ∀ acc, renderStage eng q acc = renderStage eng "h" acc := by
    intro acc
    unfold renderStage
    rw [hn]
    simp [normalizeQuality]
  refine ⟨hn, ?_⟩
  simp only [process_job, hr]

/-- Witness for C10 at the concrete quality string z. -/
theorem invalid_quality_silently_replaced_by_h_witness :
    ¬(("z" : String) = "l" ∨ ("z" : String) = "m" ∨ ("z" : String) = "h" ∨
        ("z" : String) = "p" ∨ ("z" : String) = "k") ∧
    (normalizeQuality "z" = "h" ∧
     process_job demoEngines demoFs "U1" emptyPipe "song.mp3" "b.mp4" "out" "z" =
       process_job demoEngines demoFs "U1" emptyPipe "song.mp3" "b.mp4" "out" "h") :=
  ⟨by decide, invalid_quality_silently_replaced_by_h demoEngines demoFs "U1" emptyPipe
    "song.mp3" "b.mp4" "out" "z" (by decide)⟩
/-- The callback only overwrites progress and message: across any list
of callback invocations the status, output path and error detail of the
row are untouched. -/
theorem lastState_fixed_fields (j : JobRecord) (us : List (Int × String)) :
    (lastState j us).output_path = j.output_path ∧
    (lastState j us).error = j.error ∧
    (lastState j us).status = j.status := by
  induction us generalizing j with
  | nil => simp [lastState]
  | cons u rest ih =>
    have h := ih (applyUpdate j u)
    simpa [lastState, applyUpdate] using h

/-- C2: when a job processed by the worker loop terminates, status done
forces progress 100, an output path and no error detail, status error
forces progress 0, an error detail and no output path, and the two
nullable fields characterise the terminal status exactly. -/
theorem terminal_status_field_invariants
    (eng : Engines) (fs : String → Option Bytes) (uid od : String)
    (ps : PipeState) (job : JobRecord)
    (hout : job.output_path = none) (herr : job.error = none) :
    ((runJob eng fs uid od ps job).2.1.status = "done" ∨
      (runJob eng fs uid od ps job).2.1.status = "error") ∧
    ((runJob eng fs uid od ps job).2.1.status = "done" →
      (runJob eng fs uid od ps job).2.1.progress = 100 ∧
      (runJob eng fs uid od ps job).2.1.error = none) ∧
    ((runJob eng fs uid od ps job).2.1.status = "error" →
      (runJob eng fs uid od ps job).2.1.progress = 0 ∧
      (runJob eng fs uid od ps job).2.1.output_path = none) ∧
    ((runJob eng fs uid od ps job).2.1.output_path.isSome ↔
      (runJob eng fs uid od ps job).2.1.status = "done") ∧
    ((runJob eng fs uid od ps job).2.1.error.isSome ↔
      (runJob eng fs uid od ps job).2.1.status = "error") := by
  have h := lastState_fixed_fields
    { job with
      status := "running"
      progress := 5
      message := "شروع پردازش..." }
    (process_job eng fs uid ps job.audio_path job.video_path od "h").updates
  have hJo : (lastState
      { job with
        status := "running"
        progress := 5
        message := "شروع پردازش..." }
      (process_job eng fs uid ps job.audio_path job.video_path od "h").updates).output_path
      = none := by
    rw [h.1]
    exact hout
  have hJe : (lastState
      { job with
        status := "running"
        progress := 5
        message := "شروع پردازش..." }
      (process_job eng fs uid ps job.audio_path job.video_path od "h").updates).error
      = none := by
    rw [h.2.1]
    exact herr
  have hrw : (runJob eng fs uid od ps job).2.1 =
      finishJob (lastState
        { job with
          status := "running"
          progress := 5
          message := "شروع پردازش..." }
        (process_job eng fs uid ps job.audio_path job.video_path od "h").updates)
        (process_job eng fs uid ps job.audio_path job.video_path od "h").outcome := rfl
  rw [hrw]
  cases (process_job eng fs uid ps job.audio_path job.video_path od "h").outcome with
  | ok out => simp [finishJob, hJe]
  | error e => simp [finishJob, hJo]

/-- Witness for C2 on a fresh concrete job record. -/
theorem terminal_status_field_invariants_witness :
    (mkJob 1 "ab" 1 "song.mp3" "base.mp4" 10).output_path = none ∧
    (mkJob 1 "ab" 1 "song.mp3" "base.mp4" 10).error = none ∧
    (((runJob demoEngines demoFs "U1" "out" emptyPipe
        (mkJob 1 "ab" 1 "song.mp3" "base.mp4" 10)).2.1.status = "done" ∨
      (runJob demoEngines demoFs "U1" "out" emptyPipe
        (mkJob 1 "ab" 1 "song.mp3" "base.mp4" 10)).2.1.status = "error") ∧
    ((runJob demoEngines demoFs "U1" "out" emptyPipe
        (mkJob 1 "ab" 1 "song.mp3" "base.mp4" 10)).2.1.status = "done" →
      (runJob demoEngines demoFs "U1" "out" emptyPipe
        (mkJob 1 "ab" 1 "song.mp3" "base.mp4" 10)).2.1.progress = 100 ∧
      (runJob demoEngines demoFs "U1" "out" emptyPipe
        (mkJob 1 "ab" 1 "song.mp3" "base.mp4" 10)).2.1.error = none) ∧
    ((runJob demoEngines demoFs "U1" "out" emptyPipe
        (mkJob 1 "ab" 1 "song.mp3" "base.mp4" 10)).2.1.status = "error" →
      (runJob demoEngines demoFs "U1" "out" emptyPipe
        (mkJob 1 "ab" 1 "song.mp3" "base.mp4" 10)).2.1.progress = 0 ∧
      (runJob demoEngines demoFs "U1" "out" emptyPipe
        (mkJob 1 "ab" 1 "song.mp3" "base.mp4" 10)).2.1.output_path = none) ∧
    ((runJob demoEngines demoFs "U1" "out" emptyPipe
        (mkJob 1 "ab" 1 "song.mp3" "base.mp4" 10)).2.1.output_path.isSome ↔
      (runJob demoEngines demoFs "U1" "out" emptyPipe
        (mkJob 1 "ab" 1 "song.mp3" "base.mp4" 10)).2.1.status = "done") ∧
    ((runJob demoEngines demoFs "U1" "out" emptyPipe
        (mkJob 1 "ab" 1 "song.mp3" "base.mp4" 10)).2.1.error.isSome ↔
      (runJob demoEngines demoFs "U1" "out" emptyPipe
        (mkJob 1 "ab" 1 "song.mp3" "base.mp4" 10)).2.1.status = "error")) :=
  ⟨rfl, rfl, terminal_status_field_invariants demoEngines demoFs "U1" "out" emptyPipe
    (mkJob 1 "ab" 1 "song.mp3" "base.mp4" 10) rfl rfl⟩

/-- The transcript stage reports exactly one progress update, at the 15
percent milestone. -/
theorem transcriptStage_fst_updates (eng : Engines) (audio : Bytes) (hs : String)
    (acc : PAcc) :
    ((transcriptStage eng audio hs acc).1).updates.map Prod.fst =
      acc.updates.map Prod.fst ++ [(15 : Int)] := by
  unfold transcriptStage
  cases hc : cacheLookup acc.state.segCache hs with
  | some t => simp [pushUpdate]
  | none =>
    cases hw : eng.transcribe_audio audio with
    | error e => simp [pushUpdate]
    | ok t => simp [pushUpdate]

/-- The beat stage reports exactly one progress update, at the 35
percent milestone. -/
theorem beatStage_fst_updates (eng : Engines) (audio : Bytes) (hs : String)
    (acc : PAcc) :
    ((beatStage eng audio hs acc).1).updates.map Prod.fst =
      acc.updates.map Prod.fst ++ [(35 : Int)] := by
  unfold beatStage
  cases hc : cacheLookup acc.state.beatsCache hs with
  | some b => simp [pushUpdate]
  | none =>
    cases hw : eng.analyze_beats audio with
    | error e => simp [pushUpdate]
    | ok b => simp [pushUpdate]

/-- The render stage reports exactly one progress update, at the 55
percent milestone. -/
theorem renderStage_fst_updates (eng : Engines) (q : String) (acc : PAcc) :
    ((renderStage eng q acc).1).updates.map Prod.fst =
      acc.updates.map Prod.fst ++ [(55 : Int)] := by
  simp [renderStage, pushUpdate]

/-- The composite stage reports the 80 percent milestone, followed by
the 100 percent completion update exactly when ffmpeg succeeded. -/
theorem compositeStage_fst_updates (eng : Engines) (uid ap vp od : String)
    (m : Artifact × String) (acc : PAcc) :
    ((compositeStage eng uid ap vp od m acc).1).updates.map Prod.fst =
      acc.updates.map Prod.fst ++ [(80 : Int)] ∨
    ((compositeStage eng uid ap vp od m acc).1).updates.map Prod.fst =
      acc.updates.map Prod.fst ++ [(80 : Int), 100] := by
  unfold compositeStage
  cases hf : eng.overlay_video vp (pathJoin od ("manim_" ++ uid ++ m.2)) ap with
  | error e => left; simp [hf, pushUpdate]
  | ok u => right; simp [hf, pushUpdate]

/-- The progress percentages process_job reports form a prefix of the
milestone sequence 5, 15, 35, 55, 80, 100: a stage failure truncates
the sequence, a full run reports it whole. -/
theorem process_job_fst_updates_prefix (eng : Engines) (fs : String → Option Bytes)
    (uid : String) (st : PipeState) (ap vp od q : String) :
    (process_job eng fs uid st ap vp od q).updates.map Prod.fst <+:
      [(5 : Int), 15, 35, 55, 80, 100] := by
  unfold process_job
  cases hfs : fs ap with
  | none => simp [pushUpdate]
  | some audio =>
    simp only [pushUpdate, List.nil_append]
    rcases ht : transcriptStage eng audio (eng.md5 audio)
        { state := st, calls := [], updates := [((5 : Int), "محاسبه‌ی هش فایل صوتی...")] }
      with ⟨acc1, r1⟩
    have ht' := transcriptStage_fst_updates eng audio (eng.md5 audio)
      { state := st, calls := [], updates := [((5 : Int), "محاسبه‌ی هش فایل صوتی...")] }
    rw [ht] at ht'
    dsimp only at ht'
    simp only [List.map_cons, List.map_nil, List.nil_append, List.cons_append] at ht'
    try rw [ht]
    cases r1 with
    | some e =>
      dsimp only
      rw [ht']
      decide
    | none =>
      dsimp only
      rcases hb : beatStage eng audio (eng.md5 audio) acc1 with ⟨acc2, r2⟩
      have hb' := beatStage_fst_updates eng audio (eng.md5 audio) acc1
      rw [hb] at hb'
      dsimp only at hb'
      try rw [hb]
      cases r2 with
      | some e =>
        dsimp only
        rw [hb', ht']
        decide
      | none =>
        dsimp only
        rcases hr : renderStage eng q acc2 with ⟨acc3, r3⟩
        have hr' := renderStage_fst_updates eng q acc2
        rw [hr] at hr'
        dsimp only at hr'
        try rw [hr]
        cases r3 with
        | error e =>
          dsimp only
          rw [hr', hb', ht']
          decide
        | ok m =>
          dsimp only
          rcases hco : compositeStage eng uid ap vp od m acc3 with ⟨acc4, r4⟩
          have hco' := compositeStage_fst_updates eng uid ap vp od m acc3
          rw [hco] at hco'
          dsimp only at hco'
          try rw [hco]
          cases r4 with
          | error e =>
            dsimp only
            rcases hco' with hco' | hco' <;>
              · rw [hco', hr', hb', ht']
                decide
          | ok out =>
            dsimp only
            rcases hco' with hco' | hco' <;>
              · rw [hco', hr', hb', ht']
                decide

/-- Each persisted callback row carries exactly the clamped percentage
of the corresponding reported update. -/
theorem progressSnaps_map_progress (j : JobRecord) (us : List (Int × String)) :
    (progressSnaps j us).map (fun s => s.progress) =
      us.map (fun u => clampProgress u.1) := by
  induction us generalizing j with
  | nil => simp [progressSnaps]
  | cons u rest ih => simp [progressSnaps, applyUpdate, ih]

/-- C3: over the persisted rows of a worker iteration, progress never
decreases from job creation up to the terminal commit, the callback
clamps every reported percentage into the interval 0 to 100, and the
terminal progress is exactly 100 on done and exactly 0 on error. -/
theorem progress_monotone_and_clamped
    (eng : Engines) (fs : String → Option Bytes) (uid od : String)
    (ps : PipeState) (job : JobRecord) (hq : job.progress = 0) :
    List.Chain' (fun a b => a.progress ≤ b.progress)
      (job :: ((runJob eng fs uid od ps job).2.2).dropLast) ∧
    (∀ p : Int, 0 ≤ clampProgress p ∧ clampProgress p ≤ 100) ∧
    ((runJob eng fs uid od ps job).2.1.status = "done" →
      (runJob eng fs uid od ps job).2.1.progress = 100) ∧
    ((runJob eng fs uid od ps job).2.1.status = "error" →
      (runJob eng fs uid od ps job).2.1.progress = 0) := by
  refine ⟨?_, ?_, ?_, ?_⟩
  · have hdrop : ((runJob eng fs uid od ps job).2.2) =
        ({ job with
            status := "running"
            progress := 5
            message := "شروع پردازش..." } ::
          progressSnaps
            { job with
              status := "running"
              progress := 5
              message := "شروع پردازش..." }
            (process_job eng fs uid ps job.audio_path job.video_path od "h").updates)
          ++ [(runJob eng fs uid od ps job).2.1] := rfl
    rw [hdrop, List.dropLast_concat]
    apply (List.chain'_map (fun s : JobRecord => s.progress)).mp
    have hmap : (job ::
        ({ job with
            status := "running"
            progress := 5
            message := "شروع پردازش..." } ::
          progressSnaps
            { job with
              status := "running"
              progress := 5
              message := "شروع پردازش..." }
            (process_job eng fs uid ps job.audio_path job.video_path od "h").updates)).map
          (fun s : JobRecord => s.progress) =
        (0 : Int) :: 5 ::
          ((process_job eng fs uid ps job.audio_path job.video_path od "h").updates.map
            Prod.fst).map clampProgress := by
      simp [progressSnaps_map_progress, hq, List.map_map]
    rw [hmap]
    have hpre := process_job_fst_updates_prefix eng fs uid ps
      job.audio_path job.video_path od "h"
    have hchain : List.Chain' (· ≤ ·)
        ((0 : Int) :: 5 :: ([(5 : Int), 15, 35, 55, 80, 100].map clampProgress)) := by
      simp [List.chain'_cons, clampProgress]
    apply hchain.prefix
    exact List.cons_prefix_cons.mpr ⟨rfl,
      List.cons_prefix_cons.mpr ⟨rfl, hpre.map clampProgress⟩⟩
  · intro p
    constructor
    · simp [clampProgress]
    · simp [clampProgress]
  · have hrw : (runJob eng fs uid od ps job).2.1 =
        finishJob (lastState
          { job with
            status := "running"
            progress := 5
            message := "شروع پردازش..." }
          (process_job eng fs uid ps job.audio_path job.video_path od "h").updates)
          (process_job eng fs uid ps job.audio_path job.video_path od "h").outcome := rfl
    rw [hrw]
    cases (process_job eng fs uid ps job.audio_path job.video_path od "h").outcome with
    | ok out => simp [finishJob]
    | error e => simp [finishJob]
  · have hrw : (runJob eng fs uid od ps job).2.1 =
        finishJob (lastState
          { job with
            status := "running"
            progress := 5
            message := "شروع پردازش..." }
          (process_job eng fs uid ps job.audio_path job.video_path od "h").updates)
          (process_job eng fs uid ps job.audio_path job.video_path od "h").outcome := rfl
    rw [hrw]
    cases (process_job eng fs uid ps job.audio_path job.video_path od "h").outcome with
    | ok out => simp [finishJob]
    | error e => simp [finishJob]

/-- Witness for C3 on a fresh concrete job record. -/
theorem progress_monotone_and_clamped_witness :
    (mkJob 1 "ab" 1 "song.mp3" "base.mp4" 10).progress = 0 ∧
    (List.Chain' (fun a b => a.progress ≤ b.progress)
      (mkJob 1 "ab" 1 "song.mp3" "base.mp4" 10 ::
        ((runJob demoEngines demoFs "U1" "out" emptyPipe
          (mkJob 1 "ab" 1 "song.mp3" "base.mp4" 10)).2.2).dropLast) ∧
    (∀ p : Int, 0 ≤ clampProgress p ∧ clampProgress p ≤ 100) ∧
    ((runJob demoEngines demoFs "U1" "out" emptyPipe
        (mkJob 1 "ab" 1 "song.mp3" "base.mp4" 10)).2.1.status = "done" →
      (runJob demoEngines demoFs "U1" "out" emptyPipe
        (mkJob 1 "ab" 1 "song.mp3" "base.mp4" 10)).2.1.progress = 100) ∧
    ((runJob demoEngines demoFs "U1" "out" emptyPipe
        (mkJob 1 "ab" 1 "song.mp3" "base.mp4" 10)).2.1.status = "error" →
      (runJob demoEngines demoFs "U1" "out" emptyPipe
        (mkJob 1 "ab" 1 "song.mp3" "base.mp4" 10)).2.1.progress = 0)) :=
  ⟨rfl, progress_monotone_and_clamped demoEngines demoFs "U1" "out" emptyPipe
    (mkJob 1 "ab" 1 "song.mp3" "base.mp4" 10) rfl⟩

/-- Transcript stage on a cache hit: no engine call, the cached
artifact is copied over segments.json, the caches are untouched. -/
theorem transcriptStage_hit (eng : Engines) (audio : Bytes) (hs : String)
    (acc : PAcc) (t : Artifact)
    (hc : cacheLookup acc.state.segCache hs = some t) :
    transcriptStage eng audio hs acc =
      ({ acc with
          state := { acc.state with wsSegments := some t }
          updates := acc.updates ++ [((15 : Int), "استفاده از کش متن...")] }, none) := by
  unfold transcriptStage
  simp [hc, pushUpdate]

/-- Transcript stage on a cache miss with a failing engine: the engine
was invoked, but no cache file was written and the whole disk state is
unchanged. -/
theorem transcriptStage_miss_err (eng : Engines) (audio : Bytes) (hs : String)
    (acc : PAcc) (e : String)
    (hc : cacheLookup acc.state.segCache hs = none)
    (hw : eng.transcribe_audio audio = .error e) :
    transcriptStage eng audio hs acc =
      ({ acc with
          calls := acc.calls ++ [.transcribe audio]
          updates := acc.updates ++ [((15 : Int), "تبدیل صوت به متن (Whisper)...")] },
        some e) := by
  unfold transcriptStage
  simp [hc, hw, pushUpdate]

/-- Transcript stage on a cache miss with a succeeding engine: the
computed artifact is stored under the fingerprint and copied over
segments.json. -/
theorem transcriptStage_miss_ok (eng : Engines) (audio : Bytes) (hs : String)
    (acc : PAcc) (t : Artifact)
    (hc : cacheLookup acc.state.segCache hs = none)
    (hw : eng.transcribe_audio audio = .ok t) :
    transcriptStage eng audio hs acc =
      ({ acc with
          state := { acc.state with
            segCache := cacheInsert acc.state.segCache hs t
            wsSegments := some t }
          calls := acc.calls ++ [.transcribe audio]
          updates := acc.updates ++ [((15 : Int), "تبدیل صوت به متن (Whisper)...")] },
        none) := by
  unfold transcriptStage
  simp [hc, hw, pushUpdate]

/-- Beat stage on a cache hit: no engine call, the cached artifact is
copied over beats.json, the caches are untouched. -/
theorem beatStage_hit (eng : Engines) (audio : Bytes) (hs : String)
    (acc : PAcc) (b : Artifact)
    (hc : cacheLookup acc.state.beatsCache hs = some b) :
    beatStage eng audio hs acc =
      ({ acc with
          state := { acc.state with wsBeats := some b }
          updates := acc.updates ++ [((35 : Int), "استفاده از کش ضرب‌ها...")] }, none) := by
  unfold beatStage
  simp [hc, pushUpdate]

/-- Beat stage on a cache miss with a failing engine: the engine was
invoked, but no cache file was written and the whole disk state is
unchanged. -/
theorem beatStage_miss_err (eng : Engines) (audio : Bytes) (hs : String)
    (acc : PAcc) (e : String)
    (hc : cacheLookup acc.state.beatsCache hs = none)
    (hw : eng.analyze_beats audio = .error e) :
    beatStage eng audio hs acc =
      ({ acc with
          calls := acc.calls ++ [.beats audio]
          updates := acc.updates ++ [((35 : Int), "تحلیل ضرب آهنگ (Librosa)...")] },
        some e) := by
  unfold beatStage
  simp [hc, hw, pushUpdate]

/-- Beat stage on a cache miss with a succeeding engine: the computed
artifact is stored under the fingerprint and copied over beats.json. -/
theorem beatStage_miss_ok (eng : Engines) (audio : Bytes) (hs : String)
    (acc : PAcc) (b : Artifact)
    (hc : cacheLookup acc.state.beatsCache hs = none)
    (hw : eng.analyze_beats audio = .ok b) :
    beatStage eng audio hs acc =
      ({ acc with
          state := { acc.state with
            beatsCache := cacheInsert acc.state.beatsCache hs b
            wsBeats := some b }
          calls := acc.calls ++ [.beats audio]
          updates := acc.updates ++ [((35 : Int), "تحلیل ضرب آهنگ (Librosa)...")] },
        none) := by
  unfold beatStage
  simp [hc, hw, pushUpdate]

/-- The render stage as an explicit equation: it always records one
manim invocation on the current workspace files and returns the engine
result unchanged. -/
theorem renderStage_eq (eng : Engines) (q : String) (acc : PAcc) :
    renderStage eng q acc =
      ({ acc with
          calls := acc.calls ++
            [.manim (normalizeQuality q) acc.state.wsSegments acc.state.wsBeats]
          updates := acc.updates ++ [((55 : Int), "رندر موشن با Manim...")] },
        eng.run_manim (normalizeQuality q) acc.state.wsSegments acc.state.wsBeats) := by
  simp [renderStage, pushUpdate]

/-- Composite stage when ffmpeg fails: the overlay copy was written,
the caches and workspace files are untouched, the failure propagates. -/
theorem compositeStage_err (eng : Engines) (uid ap vp od : String)
    (m : Artifact × String) (acc : PAcc) (e : String)
    (hf : eng.overlay_video vp (pathJoin od ("manim_" ++ uid ++ m.2)) ap =
      .error e) :
    compositeStage eng uid ap vp od m acc =
      ({ acc with
          state := { acc.state with
            outFiles := acc.state.outFiles ++ [pathJoin od ("manim_" ++ uid ++ m.2)] }
          calls := acc.calls ++ [.ffmpeg vp (pathJoin od ("manim_" ++ uid ++ m.2)) ap
            (pathJoin od ("final_" ++ uid ++ ".mp4"))]
          updates := acc.updates ++
            [((80 : Int), "ترکیب موشن با ویدیو اصلی (ffmpeg)...")] },
        .error e) := by
  unfold compositeStage
  simp [hf, pushUpdate]

/-- Composite stage when ffmpeg succeeds: the overlay copy and the
final output file are written, the final path is returned. -/
theorem compositeStage_ok (eng : Engines) (uid ap vp od : String)
    (m : Artifact × String) (acc : PAcc)
    (hf : eng.overlay_video vp (pathJoin od ("manim_" ++ uid ++ m.2)) ap = .ok ()) :
    compositeStage eng uid ap vp od m acc =
      ({ acc with
          state := { acc.state with
            outFiles := acc.state.outFiles ++ [pathJoin od ("manim_" ++ uid ++ m.2),
              pathJoin od ("final_" ++ uid ++ ".mp4")] }
          calls := acc.calls ++ [.ffmpeg vp (pathJoin od ("manim_" ++ uid ++ m.2)) ap
            (pathJoin od ("final_" ++ uid ++ ".mp4"))]
          updates := acc.updates ++
            [((80 : Int), "ترکیب موشن با ویدیو اصلی (ffmpeg)..."),
             ((100 : Int), "تمام شد ✅")] },
        .ok (pathJoin od ("final_" ++ uid ++ ".mp4"))) := by
  unfold compositeStage
  simp [hf, pushUpdate]

/-- Writing a cache file and reading it back under the same fingerprint
returns exactly the written artifact. -/
theorem cacheLookup_insert_self (c : List (String × Artifact)) (k : String)
    (v : Artifact) : cacheLookup (cacheInsert c k v) k = some v := by
  simp [cacheLookup, cacheInsert]

/-- Characterisation of one process_job run on a readable audio file:
each cache namespace is either untouched or extended at the fingerprint
by an artifact the engine actually returned, and any manim invocation
reads exactly the artifacts cached under the fingerprint of the current
audio in both namespaces. -/
theorem process_job_char (eng : Engines) (fs : String → Option Bytes)
    (uid : String) (st : PipeState) (ap vp od q : String) (audio : Bytes)
    (hfs : fs ap = some audio) :
    ((process_job eng fs uid st ap vp od q).state.segCache = st.segCache ∨
      ∃ t, eng.transcribe_audio audio = .ok t ∧
        (process_job eng fs uid st ap vp od q).state.segCache =
          cacheInsert st.segCache (eng.md5 audio) t) ∧
    ((process_job eng fs uid st ap vp od q).state.beatsCache = st.beatsCache ∨
      ∃ b, eng.analyze_beats audio = .ok b ∧
        (process_job eng fs uid st ap vp od q).state.beatsCache =
          cacheInsert st.beatsCache (eng.md5 audio) b) ∧
    (∀ q2 ws wb,
      EngineCall.manim q2 ws wb ∈ (process_job eng fs uid st ap vp od q).calls →
      ws = cacheLookup (process_job eng fs uid st ap vp od q).state.segCache
        (eng.md5 audio) ∧
      wb = cacheLookup (process_job eng fs uid st ap vp od q).state.beatsCache
        (eng.md5 audio) ∧
      ws.isSome ∧ wb.isSome) := by
  unfold process_job
  rw [hfs]
  dsimp only
  simp only [pushUpdate, List.nil_append]
  cases hseg : cacheLookup st.segCache (eng.md5 audio) with
  | some t =>
    rw [transcriptStage_hit eng audio (eng.md5 audio) _ t hseg]
    dsimp only
    cases hbeat : cacheLookup st.beatsCache (eng.md5 audio) with
    | some b =>
      rw [beatStage_hit eng audio (eng.md5 audio) _ b hbeat]
      dsimp only
      rw [renderStage_eq]
      dsimp only
      cases hm : eng.run_manim (normalizeQuality q) (some t) (some b) with
      | error e =>
        try rw [hm]
        dsimp only
        simp [hseg, hbeat]
        all_goals exact fun q2 ws wb hq2 hws hwb => ⟨hws, hwb, by simp [hws], by simp [hwb]⟩
      | ok m =>
        try rw [hm]
        dsimp only
        cases hf : eng.overlay_video vp (pathJoin od ("manim_" ++ uid ++ m.2)) ap with
        | error e =>
          rw [compositeStage_err eng uid ap vp od m _ e hf]
          dsimp only
          simp [hseg, hbeat]
          all_goals exact fun q2 ws wb hq2 hws hwb => ⟨hws, hwb, by simp [hws], by simp [hwb]⟩
        | ok u =>
          cases u
          rw [compositeStage_ok eng uid ap vp od m _ hf]
          dsimp only
          simp [hseg, hbeat]
          all_goals exact fun q2 ws wb hq2 hws hwb => ⟨hws, hwb, by simp [hws], by simp [hwb]⟩
    | none =>
      cases hbe : eng.analyze_beats audio with
      | error e =>
        rw [beatStage_miss_err eng audio (eng.md5 audio) _ e hbeat hbe]
        dsimp only
        simp [hseg, hbeat]
      | ok b =>
        rw [beatStage_miss_ok eng audio (eng.md5 audio) _ b hbeat hbe]
        dsimp only
        rw [renderStage_eq]
        dsimp only
        cases hm : eng.run_manim (normalizeQuality q) (some t) (some b) with
        | error e =>
          try rw [hm]
          dsimp only
          simp [hseg, hbe, cacheLookup_insert_self]
          all_goals exact fun q2 ws wb hq2 hws hwb => ⟨hws, hwb, by simp [hws], by simp [hwb]⟩
        | ok m =>
          try rw [hm]
          dsimp only
          cases hf : eng.overlay_video vp (pathJoin od ("manim_" ++ uid ++ m.2)) ap with
          | error e =>
            rw [compositeStage_err eng uid ap vp od m _ e hf]
            dsimp only
            simp [hseg, hbe, cacheLookup_insert_self]
            all_goals exact fun q2 ws wb hq2 hws hwb => ⟨hws, hwb, by simp [hws], by simp [hwb]⟩
          | ok u =>
            cases u
            rw [compositeStage_ok eng uid ap vp od m _ hf]
            dsimp only
            simp [hseg, hbe, cacheLookup_insert_self]
            all_goals exact fun q2 ws wb hq2 hws hwb => ⟨hws, hwb, by simp [hws], by simp [hwb]⟩
  | none =>
    cases hw : eng.transcribe_audio audio with
    | error e =>
      rw [transcriptStage_miss_err eng audio (eng.md5 audio) _ e hseg hw]
      dsimp only
      simp
    | ok t =>
      rw [transcriptStage_miss_ok eng audio (eng.md5 audio) _ t hseg hw]
      dsimp only
      cases hbeat : cacheLookup st.beatsCache (eng.md5 audio) with
      | some b =>
        rw [beatStage_hit eng audio (eng.md5 audio) _ b hbeat]
        dsimp only
        rw [renderStage_eq]
        dsimp only
        cases hm : eng.run_manim (normalizeQuality q) (some t) (some b) with
        | error e =>
          try rw [hm]
          dsimp only
          simp [hw, hbeat, cacheLookup_insert_self]
          all_goals exact fun q2 ws wb hq2 hws hwb => ⟨hws, hwb, by simp [hws], by simp [hwb]⟩
        | ok m =>
          try rw [hm]
          dsimp only
          cases hf : eng.overlay_video vp (pathJoin od ("manim_" ++ uid ++ m.2)) ap with
          | error e =>
            rw [compositeStage_err eng uid ap vp od m _ e hf]
            dsimp only
            simp [hw, hbeat, cacheLookup_insert_self]
            all_goals exact fun q2 ws wb hq2 hws hwb => ⟨hws, hwb, by simp [hws], by simp [hwb]⟩
          | ok u =>
            cases u
            rw [compositeStage_ok eng uid ap vp od m _ hf]
            dsimp only
            simp [hw, hbeat, cacheLookup_insert_self]
            all_goals exact fun q2 ws wb hq2 hws hwb => ⟨hws, hwb, by simp [hws], by simp [hwb]⟩
      | none =>
        cases hbe : eng.analyze_beats audio with
        | error e =>
          rw [beatStage_miss_err eng audio (eng.md5 audio) _ e hbeat hbe]
          dsimp only
          simp [hw]
        | ok b =>
          rw [beatStage_miss_ok eng audio (eng.md5 audio) _ b hbeat hbe]
          dsimp only
          rw [renderStage_eq]
          dsimp only
          cases hm : eng.run_manim (normalizeQuality q) (some t) (some b) with
          | error e =>
            try rw [hm]
            dsimp only
            simp [hw, hbe, cacheLookup_insert_self]
            all_goals exact fun q2 ws wb hq2 hws hwb => ⟨hws, hwb, by simp [hws], by simp [hwb]⟩
          | ok m =>
            try rw [hm]
            dsimp only
            cases hf : eng.overlay_video vp (pathJoin od ("manim_" ++ uid ++ m.2)) ap with
            | error e =>
              rw [compositeStage_err eng uid ap vp od m _ e hf]
              dsimp only
              simp [hw, hbe, cacheLookup_insert_self]
              all_goals exact fun q2 ws wb hq2 hws hwb => ⟨hws, hwb, by simp [hws], by simp [hwb]⟩
            | ok u =>
              cases u
              rw [compositeStage_ok eng uid ap vp od m _ hf]
              dsimp only
              simp [hw, hbe, cacheLookup_insert_self]
              all_goals exact fun q2 ws wb hq2 hws hwb => ⟨hws, hwb, by simp [hws], by simp [hwb]⟩

/-- C4: on a cache miss for either expensive stage the artifact is
stored under the audio fingerprint only after the engine computation
succeeded: a transcription failure leaves the whole disk state, and in
particular both cache namespaces, exactly as before; a beat-detection
failure leaves the beats namespace exactly as before; and an entry
observed under the fingerprint after the run is either the pre-existing
one or the artifact the engine actually returned. -/
theorem cache_written_only_after_engine_success
    (eng : Engines) (fs : String → Option Bytes) (uid : String) (st : PipeState)
    (ap vp od q : String) (audio : Bytes) (hfs : fs ap = some audio) :
    (cacheLookup st.segCache (eng.md5 audio) = none →
      ∀ e, eng.transcribe_audio audio = .error e →
        (process_job eng fs uid st ap vp od q).state = st ∧
        (process_job eng fs uid st ap vp od q).outcome = .error e) ∧
    (cacheLookup st.beatsCache (eng.md5 audio) = none →
      ((cacheLookup st.segCache (eng.md5 audio)).isSome ∨
        ∃ t, eng.transcribe_audio audio = .ok t) →
      ∀ e, eng.analyze_beats audio = .error e →
        (process_job eng fs uid st ap vp od q).state.beatsCache = st.beatsCache ∧
        (process_job eng fs uid st ap vp od q).outcome = .error e) ∧
    (∀ t, cacheLookup (process_job eng fs uid st ap vp od q).state.segCache
        (eng.md5 audio) = some t →
      cacheLookup st.segCache (eng.md5 audio) = some t ∨
        eng.transcribe_audio audio = .ok t) ∧
    (∀ b, cacheLookup (process_job eng fs uid st ap vp od q).state.beatsCache
        (eng.md5 audio) = some b →
      cacheLookup st.beatsCache (eng.md5 audio) = some b ∨
        eng.analyze_beats audio = .ok b) := by
  have hchar := process_job_char eng fs uid st ap vp od q audio hfs
  refine ⟨?_, ?_, ?_, ?_⟩
  · intro hseg e hw
    unfold process_job
    rw [hfs]
    dsimp only
    simp only [pushUpdate, List.nil_append]
    rw [transcriptStage_miss_err eng audio (eng.md5 audio) _ e hseg hw]
    dsimp only
    constructor
    · rfl
    · rfl
  · intro hbeat hpass e hbe
    unfold process_job
    rw [hfs]
    dsimp only
    simp only [pushUpdate, List.nil_append]
    cases hseg : cacheLookup st.segCache (eng.md5 audio) with
    | some t =>
      rw [transcriptStage_hit eng audio (eng.md5 audio) _ t hseg]
      dsimp only
      rw [beatStage_miss_err eng audio (eng.md5 audio) _ e hbeat hbe]
      dsimp only
      exact ⟨rfl, rfl⟩
    | none =>
      rcases hpass with hpass | ⟨t, hw⟩
      · rw [hseg] at hpass
        simp at hpass
      · rw [transcriptStage_miss_ok eng audio (eng.md5 audio) _ t hseg hw]
        dsimp only
        rw [beatStage_miss_err eng audio (eng.md5 audio) _ e hbeat hbe]
        dsimp only
        exact ⟨rfl, rfl⟩
  · intro t hlook
    rcases hchar.1 with hsame | ⟨t0, hok, hins⟩
    · rw [hsame] at hlook
      exact Or.inl hlook
    · rw [hins, cacheLookup_insert_self] at hlook
      cases hlook
      exact Or.inr hok
  · intro b hlook
    rcases hchar.2.1 with hsame | ⟨b0, hok, hins⟩
    · rw [hsame] at hlook
      exact Or.inl hlook
    · rw [hins, cacheLookup_insert_self] at hlook
      cases hlook
      exact Or.inr hok

/-- Witness for C4 on concrete engines whose transcription tool
raises. -/
theorem cache_written_only_after_engine_success_witness :
    demoFs "song.mp3" = some [1, 2, 3] ∧
    ((cacheLookup emptyPipe.segCache (whisperFailEngines.md5 [1, 2, 3]) = none →
      ∀ e, whisperFailEngines.transcribe_audio [1, 2, 3] = .error e →
        (process_job whisperFailEngines demoFs "U1" emptyPipe "song.mp3" "b.mp4" "out" "h").state = emptyPipe ∧
        (process_job whisperFailEngines demoFs "U1" emptyPipe "song.mp3" "b.mp4" "out" "h").outcome = .error e) ∧
    (cacheLookup emptyPipe.beatsCache (whisperFailEngines.md5 [1, 2, 3]) = none →
      ((cacheLookup emptyPipe.segCache (whisperFailEngines.md5 [1, 2, 3])).isSome ∨
        ∃ t, whisperFailEngines.transcribe_audio [1, 2, 3] = .ok t) →
      ∀ e, whisperFailEngines.analyze_beats [1, 2, 3] = .error e →
        (process_job whisperFailEngines demoFs "U1" emptyPipe "song.mp3" "b.mp4" "out" "h").state.beatsCache = emptyPipe.beatsCache ∧
        (process_job whisperFailEngines demoFs "U1" emptyPipe "song.mp3" "b.mp4" "out" "h").outcome = .error e) ∧
    (∀ t, cacheLookup (process_job whisperFailEngines demoFs "U1" emptyPipe "song.mp3" "b.mp4" "out" "h").state.segCache
        (whisperFailEngines.md5 [1, 2, 3]) = some t →
      cacheLookup emptyPipe.segCache (whisperFailEngines.md5 [1, 2, 3]) = some t ∨
        whisperFailEngines.transcribe_audio [1, 2, 3] = .ok t) ∧
    (∀ b, cacheLookup (process_job whisperFailEngines demoFs "U1" emptyPipe "song.mp3" "b.mp4" "out" "h").state.beatsCache
        (whisperFailEngines.md5 [1, 2, 3]) = some b →
      cacheLookup emptyPipe.beatsCache (whisperFailEngines.md5 [1, 2, 3]) = some b ∨
        whisperFailEngines.analyze_beats [1, 2, 3] = .ok b)) :=
  ⟨rfl, cache_written_only_after_engine_success whisperFailEngines demoFs "U1" emptyPipe
    "song.mp3" "b.mp4" "out" "h" [1, 2, 3] rfl⟩

/-- Invocation counts add up over concatenated call logs. -/
theorem countTranscribe_append (l1 l2 : List EngineCall) :
    countTranscribe (l1 ++ l2) = countTranscribe l1 + countTranscribe l2 := by
  simp [countTranscribe, List.filter_append]

/-- Invocation counts add up over concatenated call logs. -/
theorem countBeats_append (l1 l2 : List EngineCall) :
    countBeats (l1 ++ l2) = countBeats l1 + countBeats l2 := by
  simp [countBeats, List.filter_append]

/-- A run with both cache namespaces missing the fingerprint and both
expensive engines succeeding invokes each of them exactly once and
stores both artifacts under the fingerprint, whatever the later stages
do. -/
theorem process_job_full_miss (eng : Engines) (fs : String → Option Bytes)
    (uid : String) (st : PipeState) (ap vp od q : String) (audio : Bytes)
    (t b : Artifact)
    (hfs : fs ap = some audio)
    (hseg : cacheLookup st.segCache (eng.md5 audio) = none)
    (hbeat : cacheLookup st.beatsCache (eng.md5 audio) = none)
    (hw : eng.transcribe_audio audio = .ok t)
    (hbe : eng.analyze_beats audio = .ok b) :
    countTranscribe (process_job eng fs uid st ap vp od q).calls = 1 ∧
    countBeats (process_job eng fs uid st ap vp od q).calls = 1 ∧
    (process_job eng fs uid st ap vp od q).state.segCache =
      cacheInsert st.segCache (eng.md5 audio) t ∧
    (process_job eng fs uid st ap vp od q).state.beatsCache =
      cacheInsert st.beatsCache (eng.md5 audio) b := by
  unfold process_job
  rw [hfs]
  dsimp only
  simp only [pushUpdate, List.nil_append]
  rw [transcriptStage_miss_ok eng audio (eng.md5 audio) _ t hseg hw]
  dsimp only
  rw [beatStage_miss_ok eng audio (eng.md5 audio) _ b hbeat hbe]
  dsimp only
  rw [renderStage_eq]
  dsimp only
  cases hm : eng.run_manim (normalizeQuality q) (some t) (some b) with
  | error e =>
    try rw [hm]
    dsimp only
    simp [countTranscribe, countBeats]
  | ok m =>
    try rw [hm]
    dsimp only
    cases hf : eng.overlay_video vp (pathJoin od ("manim_" ++ uid ++ m.2)) ap with
    | error e =>
      rw [compositeStage_err eng uid ap vp od m _ e hf]
      dsimp only
      simp [countTranscribe, countBeats]
    | ok u =>
      cases u
      rw [compositeStage_ok eng uid ap vp od m _ hf]
      dsimp only
      simp [countTranscribe, countBeats]

/-- A run with both cache namespaces holding the fingerprint invokes
neither expensive engine. -/
theorem process_job_full_hit (eng : Engines) (fs : String → Option Bytes)
    (uid : String) (st : PipeState) (ap vp od q : String) (audio : Bytes)
    (t b : Artifact)
    (hfs : fs ap = some audio)
    (hseg : cacheLookup st.segCache (eng.md5 audio) = some t)
    (hbeat : cacheLookup st.beatsCache (eng.md5 audio) = some b) :
    countTranscribe (process_job eng fs uid st ap vp od q).calls = 0 ∧
    countBeats (process_job eng fs uid st ap vp od q).calls = 0 := by
  unfold process_job
  rw [hfs]
  dsimp only
  simp only [pushUpdate, List.nil_append]
  rw [transcriptStage_hit eng audio (eng.md5 audio) _ t hseg]
  dsimp only
  rw [beatStage_hit eng audio (eng.md5 audio) _ b hbeat]
  dsimp only
  rw [renderStage_eq]
  dsimp only
  cases hm : eng.run_manim (normalizeQuality q) (some t) (some b) with
  | error e =>
    try rw [hm]
    dsimp only
    simp [countTranscribe, countBeats]
  | ok m =>
    try rw [hm]
    dsimp only
    cases hf : eng.overlay_video vp (pathJoin od ("manim_" ++ uid ++ m.2)) ap with
    | error e =>
      rw [compositeStage_err eng uid ap vp od m _ e hf]
      dsimp only
      simp [countTranscribe, countBeats]
    | ok u =>
      cases u
      rw [compositeStage_ok eng uid ap vp od m _ hf]
      dsimp only
      simp [countTranscribe, countBeats]

/-- C1: two jobs over byte-identical audio, run in sequence against a
cache with no entry for the fingerprint, invoke the transcription
engine exactly once and the beat-detection engine exactly once across
the two jobs: the first job computes and stores both artifacts under
the content fingerprint, the second finds them and invokes neither
engine. -/
theorem engines_invoked_once_across_identical_jobs
    (eng : Engines) (fs : String → Option Bytes) (u1 u2 : String)
    (st : PipeState) (p1 v1 d1 q1 p2 v2 d2 q2 : String) (audio : Bytes)
    (t b : Artifact)
    (hfs1 : fs p1 = some audio) (hfs2 : fs p2 = some audio)
    (hseg : cacheLookup st.segCache (eng.md5 audio) = none)
    (hbeat : cacheLookup st.beatsCache (eng.md5 audio) = none)
    (hw : eng.transcribe_audio audio = .ok t)
    (hbe : eng.analyze_beats audio = .ok b) :
    countTranscribe ((process_job eng fs u1 st p1 v1 d1 q1).calls ++
      (process_job eng fs u2 (process_job eng fs u1 st p1 v1 d1 q1).state
        p2 v2 d2 q2).calls) = 1 ∧
    countBeats ((process_job eng fs u1 st p1 v1 d1 q1).calls ++
      (process_job eng fs u2 (process_job eng fs u1 st p1 v1 d1 q1).state
        p2 v2 d2 q2).calls) = 1 ∧
    countTranscribe (process_job eng fs u1 st p1 v1 d1 q1).calls = 1 ∧
    countBeats (process_job eng fs u1 st p1 v1 d1 q1).calls = 1 ∧
    countTranscribe (process_job eng fs u2
      (process_job eng fs u1 st p1 v1 d1 q1).state p2 v2 d2 q2).calls = 0 ∧
    countBeats (process_job eng fs u2
      (process_job eng fs u1 st p1 v1 d1 q1).state p2 v2 d2 q2).calls = 0 := by
  obtain ⟨hc1, hc2, hs1, hs2⟩ :=
    process_job_full_miss eng fs u1 st p1 v1 d1 q1 audio t b hfs1 hseg hbeat hw hbe
  have hlook1 : cacheLookup
      (process_job eng fs u1 st p1 v1 d1 q1).state.segCache (eng.md5 audio) =
      some t := by
    rw [hs1]
    exact cacheLookup_insert_self _ _ _
  have hlook2 : cacheLookup
      (process_job eng fs u1 st p1 v1 d1 q1).state.beatsCache (eng.md5 audio) =
      some b := by
    rw [hs2]
    exact cacheLookup_insert_self _ _ _
  obtain ⟨hd1, hd2⟩ := process_job_full_hit eng fs u2
    (process_job eng fs u1 st p1 v1 d1 q1).state p2 v2 d2 q2 audio t b
    hfs2 hlook1 hlook2
  refine ⟨?_, ?_, hc1, hc2, hd1, hd2⟩
  · rw [countTranscribe_append, hc1, hd1]
  · rw [countBeats_append, hc2, hd2]

/-- Witness for C1 on concrete engines and a concrete audio file. -/
theorem engines_invoked_once_across_identical_jobs_witness :
    demoFs "song.mp3" = some [1, 2, 3] ∧
    cacheLookup emptyPipe.segCache (demoEngines.md5 [1, 2, 3]) = none ∧
    cacheLookup emptyPipe.beatsCache (demoEngines.md5 [1, 2, 3]) = none ∧
    demoEngines.transcribe_audio [1, 2, 3] = .ok "segments-artifact" ∧
    demoEngines.analyze_beats [1, 2, 3] = .ok "beats-artifact" ∧
    (countTranscribe ((process_job demoEngines demoFs "U1" emptyPipe "song.mp3" "v1" "out" "h").calls ++
      (process_job demoEngines demoFs "U2"
        (process_job demoEngines demoFs "U1" emptyPipe "song.mp3" "v1" "out" "h").state
        "song.mp3" "v2" "out" "h").calls) = 1 ∧
    countBeats ((process_job demoEngines demoFs "U1" emptyPipe "song.mp3" "v1" "out" "h").calls ++
      (process_job demoEngines demoFs "U2"
        (process_job demoEngines demoFs "U1" emptyPipe "song.mp3" "v1" "out" "h").state
        "song.mp3" "v2" "out" "h").calls) = 1 ∧
    countTranscribe (process_job demoEngines demoFs "U1" emptyPipe "song.mp3" "v1" "out" "h").calls = 1 ∧
    countBeats (process_job demoEngines demoFs "U1" emptyPipe "song.mp3" "v1" "out" "h").calls = 1 ∧
    countTranscribe (process_job demoEngines demoFs "U2"
      (process_job demoEngines demoFs "U1" emptyPipe "song.mp3" "v1" "out" "h").state
      "song.mp3" "v2" "out" "h").calls = 0 ∧
    countBeats (process_job demoEngines demoFs "U2"
      (process_job demoEngines demoFs "U1" emptyPipe "song.mp3" "v1" "out" "h").state
      "song.mp3" "v2" "out" "h").calls = 0) :=
  ⟨rfl, rfl, rfl, rfl, rfl,
    engines_invoked_once_across_identical_jobs demoEngines demoFs "U1" "U2" emptyPipe
      "song.mp3" "v1" "out" "h" "song.mp3" "v2" "out" "h" [1, 2, 3]
      "segments-artifact" "beats-artifact" rfl rfl rfl rfl rfl rfl⟩

/-- Disk state left behind by a previous job: stale artifacts at the
fixed shared workspace locations segments.json and beats.json. -/
def stalePipe : PipeState :=
  { emptyPipe with
    wsSegments := some "stale-segments"
    wsBeats := some "stale-beats" }

/-- C9: every render invocation of a job reads, at the fixed shared
workspace locations segments.json and beats.json, exactly the
transcript and beat artifacts cached under the fingerprint of the
current audio — on the cache-hit path as much as on the cache-miss
path, and for every initial workspace content, including files left
behind by a previous job. -/
theorem render_reads_current_job_artifacts
    (eng : Engines) (fs : String → Option Bytes) (uid : String) (st : PipeState)
    (ap vp od q : String) (audio : Bytes) (hfs : fs ap = some audio) :
    ∀ q2 ws wb,
      EngineCall.manim q2 ws wb ∈ (process_job eng fs uid st ap vp od q).calls →
      ws = cacheLookup (process_job eng fs uid st ap vp od q).state.segCache
        (eng.md5 audio) ∧
      wb = cacheLookup (process_job eng fs uid st ap vp od q).state.beatsCache
        (eng.md5 audio) ∧
      ws.isSome ∧ wb.isSome :=
  (process_job_char eng fs uid st ap vp od q audio hfs).2.2

/-- Witness for C9, starting from a workspace holding files left by a previous job. -/
theorem render_reads_current_job_artifacts_witness :
    demoFs "song.mp3" = some [1, 2, 3] ∧
    (∀ q2 ws wb,
      EngineCall.manim q2 ws wb ∈
        (process_job demoEngines demoFs "U1" stalePipe "song.mp3" "v1" "out" "h").calls →
      ws = cacheLookup
        (process_job demoEngines demoFs "U1" stalePipe "song.mp3" "v1" "out" "h").state.segCache
        (demoEngines.md5 [1, 2, 3]) ∧
      wb = cacheLookup
        (process_job demoEngines demoFs "U1" stalePipe "song.mp3" "v1" "out" "h").state.beatsCache
        (demoEngines.md5 [1, 2, 3]) ∧
      ws.isSome ∧ wb.isSome) :=
  ⟨rfl, render_reads_current_job_artifacts demoEngines demoFs "U1" stalePipe
    "song.mp3" "v1" "out" "h" [1, 2, 3] rfl⟩

/-- A successful composite stage returns exactly the final path built
from the output directory and the job token. -/
theorem compositeStage_ok_path (eng : Engines) (uid ap vp od : String)
    (m : Artifact × String) (acc acc2 : PAcc) (out : String)
    (h : compositeStage eng uid ap vp od m acc = (acc2, .ok out)) :
    out = finalOutputPath od uid := by
  cases hf : eng.overlay_video vp (pathJoin od ("manim_" ++ uid ++ m.2)) ap with
  | error e =>
    rw [compositeStage_err eng uid ap vp od m acc e hf] at h
    simp at h
  | ok u =>
    cases u
    rw [compositeStage_ok eng uid ap vp od m acc hf] at h
    have h2 := congrArg Prod.snd h
    dsimp only at h2
    simp only [Except.ok.injEq] at h2
    rw [← h2]
    rfl

/-- Every successful process_job run returns exactly the final path
built from the output directory and the job token. -/
theorem process_job_ok_path (eng : Engines) (fs : String → Option Bytes)
    (uid : String) (st : PipeState) (ap vp od q : String) (o : String)
    (h : (process_job eng fs uid st ap vp od q).outcome = .ok o) :
    o = finalOutputPath od uid := by
  unfold process_job at h
  cases hfs : fs ap with
  | none =>
    rw [hfs] at h
    dsimp only at h
    simp at h
  | some audio =>
    rw [hfs] at h
    dsimp only at h
    rcases ht : transcriptStage eng audio (eng.md5 audio)
        (pushUpdate { state := st, calls := [], updates := [] } 5
          "محاسبه‌ی هش فایل صوتی...")
      with ⟨acc1, r1⟩
    rw [ht] at h
    cases r1 with
    | some e =>
      dsimp only at h
      simp at h
    | none =>
      dsimp only at h
      rcases hb : beatStage eng audio (eng.md5 audio) acc1 with ⟨acc2, r2⟩
      rw [hb] at h
      cases r2 with
      | some e =>
        dsimp only at h
        simp at h
      | none =>
        dsimp only at h
        rcases hr : renderStage eng q acc2 with ⟨acc3, r3⟩
        rw [hr] at h
        cases r3 with
        | error e =>
          dsimp only at h
          simp at h
        | ok m =>
          dsimp only at h
          rcases hco : compositeStage eng uid ap vp od m acc3 with ⟨acc4, r4⟩
          rw [hco] at h
          cases r4 with
          | error e =>
            dsimp only at h
            simp at h
          | ok out =>
            dsimp only at h
            simp only [Except.ok.injEq] at h
            rw [← h]
            exact compositeStage_ok_path eng uid ap vp od m acc3 acc4 out hco

/-- Amended C8: two successful jobs whose unique tokens differ always
write distinct final output paths (the source does not guarantee the
tokens themselves differ: the token is a second-resolution timestamp
plus four random characters). -/
theorem distinct_tokens_give_distinct_output_paths
    (eng1 eng2 : Engines) (fs1 fs2 : String → Option Bytes) (u1 u2 : String)
    (st1 st2 : PipeState) (p1 v1 q1 p2 v2 q2 od : String) (o1 o2 : String)
    (hu : u1 ≠ u2)
    (h1 : (process_job eng1 fs1 u1 st1 p1 v1 od q1).outcome = .ok o1)
    (h2 : (process_job eng2 fs2 u2 st2 p2 v2 od q2).outcome = .ok o2) :
    o1 ≠ o2 := by
  rw [process_job_ok_path eng1 fs1 u1 st1 p1 v1 od q1 o1 h1,
    process_job_ok_path eng2 fs2 u2 st2 p2 v2 od q2 o2 h2]
  unfold finalOutputPath pathJoin
  intro heq
  apply hu
  have hd := congrArg String.data heq
  simp only [String.data_append] at hd
  have hc1 := List.append_cancel_left hd
  have hc2 := List.append_cancel_right hc1
  have hc3 := List.append_cancel_left hc2
  exact String.ext hc3

/-- Witness for the amended C8 on two concrete runs with distinct
tokens. -/
theorem distinct_tokens_give_distinct_output_paths_witness :
    ("U1" : String) ≠ "U2" ∧
    (process_job demoEngines demoFs "U1" emptyPipe "song.mp3" "v1" "out" "h").outcome =
      .ok "out/final_U1.mp4" ∧
    (process_job demoEngines demoFs "U2" emptyPipe "song.mp3" "v2" "out" "h").outcome =
      .ok "out/final_U2.mp4" ∧
    ("out/final_U1.mp4" : String) ≠ "out/final_U2.mp4" :=
  ⟨by decide, rfl, rfl,
    distinct_tokens_give_distinct_output_paths demoEngines demoEngines demoFs demoFs
      "U1" "U2" emptyPipe emptyPipe "song.mp3" "v1" "h" "song.mp3" "v2" "h" "out"
      "out/final_U1.mp4" "out/final_U2.mp4" (by decide) rfl rfl⟩

/-- Counterexample to C8 as stated: when unique_id produces the same
token for two jobs — the same strftime second and the same four random
characters — the two jobs return the same output path, and the second
run rewrites a path that already exists in the output directory. -/
theorem identical_token_collides_output_path :
    (process_job demoEngines demoFs (unique_id "20240101_000000" "aaaa") emptyPipe
      "song.mp3" "v1" "out" "h").outcome =
      .ok "out/final_20240101_000000_aaaa.mp4" ∧
    (process_job demoEngines demoFs (unique_id "20240101_000000" "aaaa")
      (process_job demoEngines demoFs (unique_id "20240101_000000" "aaaa") emptyPipe
        "song.mp3" "v1" "out" "h").state
      "song.mp3" "v2" "out" "h").outcome =
      .ok "out/final_20240101_000000_aaaa.mp4" ∧
    "out/final_20240101_000000_aaaa.mp4" ∈
      (process_job demoEngines demoFs (unique_id "20240101_000000" "aaaa") emptyPipe
        "song.mp3" "v1" "out" "h").state.outFiles :=
  ⟨rfl, rfl, by decide⟩

/-- A dequeued id with no Job row is discarded silently: the store is
unchanged. -/
theorem workerStep_store_none (eng : Engines) (fs : String → Option Bytes)
    (uidOf : Nat → String) (od : String) (ws : WorkerState) (i : Nat)
    (h : findJob ws.store i = none) :
    (workerStep eng fs uidOf od ws i).store = ws.store := by
  unfold workerStep
  rw [h]

/-- A dequeued id with a Job row replaces exactly that row by the final
row of its run. -/
theorem workerStep_store_some (eng : Engines) (fs : String → Option Bytes)
    (uidOf : Nat → String) (od : String) (ws : WorkerState) (i : Nat)
    (job : JobRecord) (h : findJob ws.store i = some job) :
    (workerStep eng fs uidOf od ws i).store =
      updateJob ws.store i (runJob eng fs (uidOf i) od ws.pipe job).2.1 := by
  unfold workerStep
  rw [h]

/-- One worker iteration appends exactly the trace block of the
dequeued id to the global trace. -/
theorem workerStep_trace (eng : Engines) (fs : String → Option Bytes)
    (uidOf : Nat → String) (od : String) (ws : WorkerState) (i : Nat) :
    (workerStep eng fs uidOf od ws i).trace =
      ws.trace ++ jobBlock eng fs uidOf od ws i := by
  unfold workerStep jobBlock
  cases h : findJob ws.store i with
  | none => simp
  | some job => simp

/-- A found row carries the id it was looked up under. -/
theorem findJob_id (store : List JobRecord) (k : Nat) (j : JobRecord)
    (h : findJob store k = some j) : j.id = k := by
  have h2 := List.find?_some h
  simpa using h2

/-- The terminal commit always yields a terminal status, with the error
detail set on the error branch. -/
theorem finishJob_terminal (j : JobRecord) (oc : Except String String) :
    ((finishJob j oc).status = "done" ∨ (finishJob j oc).status = "error") ∧
    ((finishJob j oc).status = "error" → (finishJob j oc).error.isSome) := by
  cases oc with
  | ok out => simp [finishJob]
  | error e => simp [finishJob]

/-- After a worker iteration on id i, every row with id i is terminal
with its error detail set on failure. -/
theorem workerStep_establishes (eng : Engines) (fs : String → Option Bytes)
    (uidOf : Nat → String) (od : String) (ws : WorkerState) (i : Nat) :
    ∀ j ∈ (workerStep eng fs uidOf od ws i).store, j.id = i →
      (j.status = "done" ∨ j.status = "error") ∧
      (j.status = "error" → j.error.isSome) := by
  intro j hj hjid
  cases hfind : findJob ws.store i with
  | none =>
    rw [workerStep_store_none eng fs uidOf od ws i hfind] at hj
    exfalso
    have hnone := List.find?_eq_none.mp hfind j hj
    simp [hjid] at hnone
  | some job =>
    rw [workerStep_store_some eng fs uidOf od ws i job hfind] at hj
    rcases List.mem_map.mp hj with ⟨j0, hj0, hrep⟩
    by_cases hid0 : (j0.id == i) = true
    · rw [if_pos hid0] at hrep
      rw [← hrep]
      have hrw : (runJob eng fs (uidOf i) od ws.pipe job).2.1 =
          finishJob (lastState
            { job with
              status := "running"
              progress := 5
              message := "شروع پردازش..." }
            (process_job eng fs (uidOf i) ws.pipe job.audio_path job.video_path
              od "h").updates)
            (process_job eng fs (uidOf i) ws.pipe job.audio_path job.video_path
              od "h").outcome := rfl
      rw [hrw]
      exact finishJob_terminal _ _
    · rw [if_neg hid0] at hrep
      exfalso
      rw [← hrep] at hjid
      simp [hjid] at hid0

/-- A worker iteration on any id keeps every row with id i terminal
when it already was. -/
theorem workerStep_preserves (eng : Engines) (fs : String → Option Bytes)
    (uidOf : Nat → String) (od : String) (ws : WorkerState) (i k : Nat)
    (hprev : ∀ j ∈ ws.store, j.id = i →
      (j.status = "done" ∨ j.status = "error") ∧
      (j.status = "error" → j.error.isSome)) :
    ∀ j ∈ (workerStep eng fs uidOf od ws k).store, j.id = i →
      (j.status = "done" ∨ j.status = "error") ∧
      (j.status = "error" → j.error.isSome) := by
  intro j hj hjid
  by_cases hk : k = i
  · exact workerStep_establishes eng fs uidOf od ws k j hj (hk ▸ hjid)
  · cases hfind : findJob ws.store k with
    | none =>
      rw [workerStep_store_none eng fs uidOf od ws k hfind] at hj
      exact hprev j hj hjid
    | some job =>
      rw [workerStep_store_some eng fs uidOf od ws k job hfind] at hj
      rcases List.mem_map.mp hj with ⟨j0, hj0, hrep⟩
      by_cases hid0 : (j0.id == k) = true
      · exfalso
        rw [if_pos hid0] at hrep
        have hjk : j.id = k := by
          rw [← hrep]
          have hrw : (runJob eng fs (uidOf k) od ws.pipe job).2.1.id = job.id := by
            have hfix := lastState_fixed_fields
              { job with
                status := "running"
                progress := 5
                message := "شروع پردازش..." }
              (process_job eng fs (uidOf k) ws.pipe job.audio_path job.video_path
                od "h").updates
            cases houtc : (process_job eng fs (uidOf k) ws.pipe job.audio_path
                job.video_path od "h").outcome with
            | ok out =>
              show (finishJob _ _).id = job.id
              rw [houtc]
              simp [finishJob]
              have h3 : ∀ us j2, (lastState (j2 : JobRecord) us).id = j2.id := by
                intro us
                induction us with
                | nil => intro j2; simp [lastState]
                | cons u rest ih =>
                  intro j2
                  simpa [lastState, applyUpdate] using ih (applyUpdate j2 u)
              exact h3 _ _
            | error e =>
              show (finishJob _ _).id = job.id
              rw [houtc]
              simp [finishJob]
              have h3 : ∀ us j2, (lastState (j2 : JobRecord) us).id = j2.id := by
                intro us
                induction us with
                | nil => intro j2; simp [lastState]
                | cons u rest ih =>
                  intro j2
                  simpa [lastState, applyUpdate] using ih (applyUpdate j2 u)
              exact h3 _ _
          rw [hrw]
          exact findJob_id ws.store k job hfind
        exact hk (hjk ▸ hjid ▸ rfl)
      · rw [if_neg hid0] at hrep
        rw [← hrep]
        exact hprev j0 hj0 (hrep ▸ hjid)

/-- Terminality of a given id is stable under the whole remaining
worker run. -/
theorem worker_loop_preserves (eng : Engines) (fs : String → Option Bytes)
    (uidOf : Nat → String) (od : String) (i : Nat) (queue : List Nat) :
    ∀ ws : WorkerState,
      (∀ j ∈ ws.store, j.id = i →
        (j.status = "done" ∨ j.status = "error") ∧
        (j.status = "error" → j.error.isSome)) →
      ∀ j ∈ (worker_loop eng fs uidOf od ws queue).store, j.id = i →
        (j.status = "done" ∨ j.status = "error") ∧
        (j.status = "error" → j.error.isSome) := by
  induction queue with
  | nil => intro ws h; exact h
  | cons k rest ih =>
    intro ws h
    exact ih (workerStep eng fs uidOf od ws k)
      (workerStep_preserves eng fs uidOf od ws i k h)

/-- C5: whatever the engines do — including every stage failure — the
worker loop drains the whole queue, and every queued job that has a row
ends in a terminal status, with the failure description stored in its
error detail on the error branch: no job failure terminates the loop or
blocks the jobs queued behind it. -/
theorem job_failures_confined_and_loop_continues (eng : Engines)
    (fs : String → Option Bytes) (uidOf : Nat → String) (od : String)
    (ws : WorkerState) (queue : List Nat) (id : Nat) (hid : id ∈ queue) :
    ∀ j ∈ (worker_loop eng fs uidOf od ws queue).store, j.id = id →
      (j.status = "done" ∨ j.status = "error") ∧
      (j.status = "error" → j.error.isSome) := by
  revert hid
  induction queue generalizing ws with
  | nil =>
    intro hid
    cases hid
  | cons k rest ih =>
    intro hid
    rcases List.mem_cons.mp hid with hk | hmem
    · subst hk
      exact worker_loop_preserves eng fs uidOf od id rest
        (workerStep eng fs uidOf od ws id)
        (workerStep_establishes eng fs uidOf od ws id)
    · exact ih (workerStep eng fs uidOf od ws k) hmem

/-- Witness for C5: a queue of two jobs where the render
stage of the first job fails; both jobs end terminal. -/
theorem job_failures_confined_and_loop_continues_witness :
    (1 : Nat) ∈ [1, 2] ∧
    (∀ j ∈ (worker_loop manimFailEngines demoFs (fun i => "U" ++ toString i) "out"
        { store := [mkJob 1 "aa" 1 "song.mp3" "v1" 20, mkJob 2 "bb" 1 "song.mp3" "v2" 10],
          pipe := emptyPipe, medias := [], trace := [] } [1, 2]).store,
      j.id = 1 →
      (j.status = "done" ∨ j.status = "error") ∧
      (j.status = "error" → j.error.isSome)) :=
  ⟨by decide, job_failures_confined_and_loop_continues manimFailEngines demoFs
    (fun i => "U" ++ toString i) "out"
    { store := [mkJob 1 "aa" 1 "song.mp3" "v1" 20, mkJob 2 "bb" 1 "song.mp3" "v2" 10],
      pipe := emptyPipe, medias := [], trace := [] } [1, 2] 1 (by decide)⟩

/-- The global trace of a worker run is the concatenation of the
per-job blocks in dequeue order. -/
theorem worker_loop_trace (eng : Engines) (fs : String → Option Bytes)
    (uidOf : Nat → String) (od : String) (queue : List Nat) :
    ∀ ws : WorkerState,
      (worker_loop eng fs uidOf od ws queue).trace =
        ws.trace ++ (traceBlocks eng fs uidOf od ws queue).flatten := by
  induction queue with
  | nil =>
    intro ws
    simp [worker_loop, traceBlocks]
  | cons k rest ih =>
    intro ws
    have h1 : worker_loop eng fs uidOf od ws (k :: rest) =
        worker_loop eng fs uidOf od (workerStep eng fs uidOf od ws k) rest := rfl
    have h2 : traceBlocks eng fs uidOf od ws (k :: rest) =
        jobBlock eng fs uidOf od ws k ::
          traceBlocks eng fs uidOf od (workerStep eng fs uidOf od ws k) rest := rfl
    rw [h1, ih, h2, workerStep_trace]
    simp [List.append_assoc]

/-- Every event of the trace block of a job carries the id of that job. -/
theorem jobBlock_ids (eng : Engines) (fs : String → Option Bytes)
    (uidOf : Nat → String) (od : String) (ws : WorkerState) (i : Nat) :
    ∀ e ∈ jobBlock eng fs uidOf od ws i, e.1 = i := by
  intro e he
  unfold jobBlock at he
  cases h : findJob ws.store i with
  | none =>
    rw [h] at he
    simp at he
  | some job =>
    rw [h] at he
    dsimp only at he
    rcases List.mem_map.mp he with ⟨s, hs, hrep⟩
    rw [← hrep]

/-- A nonempty trace block ends with a terminal row: the next dequeued
job contributes events only after this one has reached done or error. -/
theorem jobBlock_last_terminal (eng : Engines) (fs : String → Option Bytes)
    (uidOf : Nat → String) (od : String) (ws : WorkerState) (i : Nat) :
    jobBlock eng fs uidOf od ws i = [] ∨
    ∃ e, (jobBlock eng fs uidOf od ws i).getLast? = some e ∧
      (e.2.status = "done" ∨ e.2.status = "error") := by
  unfold jobBlock
  cases h : findJob ws.store i with
  | none =>
    left
    rfl
  | some job =>
    right
    refine ⟨(i, (runJob eng fs (uidOf i) od ws.pipe job).2.1), ?_, ?_⟩
    · rw [List.getLast?_map]
      have hsn : (runJob eng fs (uidOf i) od ws.pipe job).2.2 =
          ({ job with
              status := "running"
              progress := 5
              message := "شروع پردازش..." } ::
            progressSnaps
              { job with
                status := "running"
                progress := 5
                message := "شروع پردازش..." }
              (process_job eng fs (uidOf i) ws.pipe job.audio_path job.video_path
                od "h").updates)
            ++ [(runJob eng fs (uidOf i) od ws.pipe job).2.1] := rfl
      rw [hsn, List.getLast?_concat]
      rfl
    · have hrw : (runJob eng fs (uidOf i) od ws.pipe job).2.1 =
          finishJob (lastState
            { job with
              status := "running"
              progress := 5
              message := "شروع پردازش..." }
            (process_job eng fs (uidOf i) ws.pipe job.audio_path job.video_path
              od "h").updates)
            (process_job eng fs (uidOf i) ws.pipe job.audio_path job.video_path
              od "h").outcome := rfl
      rw [hrw]
      exact (finishJob_terminal _ _).1

/-- C6: for every store contents — in particular for creation
timestamps in any order — the worker trace is exactly the concatenation
of per-job blocks in strict dequeue (FIFO) order; every event of a
block belongs to the job of that block, and a nonempty block ends with
a terminal row, so the events of the next job begin only after the
previous job reached a terminal status and the transitions of two jobs
never interleave. -/
theorem fifo_order_and_no_interleaving (eng : Engines)
    (fs : String → Option Bytes) (uidOf : Nat → String) (od : String)
    (ws : WorkerState) (queue : List Nat) :
    (worker_loop eng fs uidOf od ws queue).trace =
      ws.trace ++ (traceBlocks eng fs uidOf od ws queue).flatten ∧
    List.Forall₂ (fun (i : Nat) (blk : List (Nat × JobRecord)) =>
        (∀ e ∈ blk, e.1 = i) ∧
        (blk = [] ∨ ∃ e, blk.getLast? = some e ∧
          (e.2.status = "done" ∨ e.2.status = "error")))
      queue (traceBlocks eng fs uidOf od ws queue) := by
  constructor
  · exact worker_loop_trace eng fs uidOf od queue ws
  · induction queue generalizing ws with
    | nil => constructor
    | cons k rest ih =>
      exact List.Forall₂.cons
        ⟨jobBlock_ids eng fs uidOf od ws k,
          jobBlock_last_terminal eng fs uidOf od ws k⟩
        (ih (workerStep eng fs uidOf od ws k))
